import Mathlib

/-!
Verification of the NWS forecast processing pipeline
(scripts/processing/process_forecast_data.py).

The development shallowly embeds the three classes of the script:

* ForecastCorruptionDetector.detect_corruption_patterns
* ForecastPeriodConverter (parse_forecast_timestamp, extract_warnings,
  convert_forecast_periods)
* NWSForecastProcessor (analyze_forecast_file, process_forecast_file)

Python regular expressions are embedded as deterministic scanners over
List Char.  Each scanner implements the exact language and findall
semantics of the corresponding pattern, specialised using the standard
leftmost / greedy / lazy backtracking rules of the re module; comments on
every scanner record the pattern it implements.  Dates use a proleptic
Gregorian calendar as datetime.date does.
-/

namespace WindLLM

/-! ## Character classes (Python re character classes, ASCII input) -/

/-- Python regex class [A-Z]. -/
def isUp (c : Char) : Bool := 'A' ≤ c && c ≤ 'Z'

/-- Python regex class \d restricted to ASCII, i.e. [0-9]. -/
def isDig (c : Char) : Bool := '0' ≤ c && c ≤ '9'

/-- Python regex class \s on ASCII text: space, tab, newline, carriage
return, vertical tab, form feed.  This is also the set stripped by
str.strip(). -/
def isPyWs (c : Char) : Bool :=
  c = ' ' || c = '\t' || c = '\n' || c = '\r' || c = '\x0b' || c = '\x0c'

/-- Digit value of an ASCII digit character. -/
def digVal (c : Char) : Nat := c.toNat - '0'.toNat

/-! ## Small list-scanner helpers -/

/-- Split a list into its maximal prefix of characters satisfying p and
the remainder (the action of a greedy run such as \s+ or [A-Z]+). -/
def splitRun (p : Char → Bool) (cs : List Char) : List Char × List Char :=
  (cs.takeWhile p, cs.dropWhile p)

/-- Drop an expected literal prefix, or fail. -/
def dropLit (lit : List Char) (cs : List Char) : Option (List Char) :=
  if lit.isPrefixOf cs then some (cs.drop lit.length) else none

/-- Index of the first occurrence of a literal inside a list
(the earliest stop of a lazy gap such as in a.*?b). -/
def findLitIdx (lit : List Char) : List Char → Option Nat
  | [] => if lit.isEmpty then some 0 else none
  | c :: rest =>
    if lit.isPrefixOf (c :: rest) then some 0
    else (findLitIdx lit rest).map (· + 1)

/-- Python str.strip(): remove leading and trailing whitespace. -/
def pyStrip (cs : List Char) : List Char :=
  (((cs.dropWhile isPyWs).reverse).dropWhile isPyWs).reverse

/-- str.strip() on a String. -/
def pyStripS (s : String) : String := String.mk (pyStrip s.data)

/-- Python s.endswith(t). -/
def pyEndsWith (s t : String) : Bool :=
  t.data.reverse.isPrefixOf s.data.reverse

/-- Collapse runs of two or more spaces to one space (helper for the
embedding of re.sub with pattern \s+). -/
def squeezeSpaces : List Char → List Char
  | [] => []
  | [c] => [c]
  | a :: b :: rest =>
    if a = ' ' && b = ' ' then squeezeSpaces (b :: rest)
    else a :: squeezeSpaces (b :: rest)

/-- re.sub with pattern \s+ and replacement a single space: every maximal
whitespace run becomes one space. -/
def collapseWs (cs : List Char) : List Char :=
  squeezeSpaces (cs.map (fun c => if isPyWs c then ' ' else c))

/-- Python lowercase of an ASCII letter (str.lower()). -/
def lowChar (c : Char) : Char :=
  if 'A' ≤ c && c ≤ 'Z' then Char.ofNat (c.toNat + 32) else c

/-- str.lower() on a String. -/
def lowerS (s : String) : String := String.mk (s.data.map lowChar)

/-- Python substring containment: needle in haystack. -/
def containsSub (hay needle : List Char) : Bool :=
  match hay with
  | [] => needle.isEmpty
  | _ :: rest => needle.isPrefixOf hay || containsSub rest needle

/-- A single apostrophe character, used when reproducing Python string
formatting of details. -/
def sq : String := String.mk [Char.ofNat 39]

/-- Fuelled body of Python str.replace: replace non-overlapping
occurrences of a (non-empty) literal left to right.  The initial fuel of
length + 1 never runs out because each step consumes at least one
character. -/
def replaceSubF (lit repl : List Char) : Nat → List Char → List Char
  | 0, cs => cs
  | _, [] => []
  | fuel + 1, c :: rest =>
    if lit.isPrefixOf (c :: rest) then
      repl ++ replaceSubF lit repl fuel ((c :: rest).drop lit.length)
    else c :: replaceSubF lit repl fuel rest

/-- Python str.replace for a non-empty literal. -/
def replaceSub (s lit repl : String) : String :=
  String.mk (replaceSubF lit.data repl.data (s.data.length + 1) s.data)

/-- Fuelled body of Python str.split on a (non-empty) literal separator:
cut at non-overlapping leftmost occurrences.  acc holds the current
segment reversed. -/
def splitOnLitF (sep : List Char) : Nat → List Char → List Char → List String
  | 0, acc, cs => [String.mk (acc.reverse ++ cs)]
  | _, acc, [] => [String.mk acc.reverse]
  | fuel + 1, acc, c :: rest =>
    if sep.isPrefixOf (c :: rest) then
      String.mk acc.reverse ::
        splitOnLitF sep fuel [] ((c :: rest).drop sep.length)
    else splitOnLitF sep fuel (c :: acc) rest

/-- Python str.split on a non-empty literal separator. -/
def splitOnLit (sep : List Char) (cs : List Char) : List String :=
  splitOnLitF sep (cs.length + 1) [] cs

/-! ## Dates (datetime.date, proleptic Gregorian) -/

/-- A calendar date as held by datetime.date. -/
structure Date where
  year : Nat
  month : Nat
  day : Nat
  deriving DecidableEq, Repr

/-- Gregorian leap year rule (as used by datetime). -/
def isLeapYear (y : Nat) : Bool :=
  (y % 4 = 0 && y % 100 ≠ 0) || (y % 400 = 0)

/-- Number of days in a month of a given year. -/
def daysInMonth (y m : Nat) : Nat :=
  if m = 2 then (if isLeapYear y then 29 else 28)
  else if m = 4 || m = 6 || m = 9 || m = 11 then 30
  else 31

/-- The day after a given date. -/
def nextDay (d : Date) : Date :=
  if d.day < daysInMonth d.year d.month then ⟨d.year, d.month, d.day + 1⟩
  else if d.month < 12 then ⟨d.year, d.month + 1, 1⟩
  else ⟨d.year + 1, 1, 1⟩

/-- date + timedelta(days = n). -/
def Date.addDays : Date → Nat → Date
  | d, 0 => d
  | d, n + 1 => Date.addDays (nextDay d) n

/-- A datetime as returned by datetime.fromisoformat for the pipeline
timestamps: a calendar date plus a time of day. -/
structure DateTime where
  date : Date
  hour : Nat
  minute : Nat
  second : Nat
  deriving DecidableEq, Repr

/-- Zero-pad a number to two digits (Python %02d, as used by str(date) and
isoformat rendering). -/
def pad2 (n : Nat) : String :=
  if n < 10 then "0" ++ toString n else toString n

/-- Zero-pad a number to four digits. -/
def pad4 (n : Nat) : String :=
  if n < 10 then "000" ++ toString n
  else if n < 100 then "00" ++ toString n
  else if n < 1000 then "0" ++ toString n
  else toString n

/-- str(date): YYYY-MM-DD. -/
def formatDate (d : Date) : String :=
  pad4 d.year ++ "-" ++ pad2 d.month ++ "-" ++ pad2 d.day

/-! ## Timestamp recognition and parsing

The pipeline timestamp pattern is
\d.4-\d.2-\d.2T\d.2:\d.2:\d.2-08:00 (25 characters). -/

/-- Match the 25-character timestamp shape at the head of the list,
returning the remainder on success. -/
def tsShape : List Char → Option (List Char)
  | y1 :: y2 :: y3 :: y4 :: '-' :: m1 :: m2 :: '-' :: d1 :: d2 :: 'T' ::
    h1 :: h2 :: ':' :: n1 :: n2 :: ':' :: s1 :: s2 :: '-' :: '0' :: '8' ::
    ':' :: '0' :: '0' :: rest =>
    if isDig y1 && isDig y2 && isDig y3 && isDig y4 && isDig m1 && isDig m2 &&
       isDig d1 && isDig d2 && isDig h1 && isDig h2 && isDig n1 && isDig n2 &&
       isDig s1 && isDig s2 then some rest else none
  | _ => none

/-- re.search for the timestamp pattern: position and text of the first
match.  The script then locates the same text with str.find, which gives
the identical position, so one function serves both uses. -/
def searchTimestamp : List Char → Option (Nat × String)
  | [] => none
  | c :: rest =>
    match tsShape (c :: rest) with
    | some _ => some (0, String.mk ((c :: rest).take 25))
    | none => (searchTimestamp rest).map (fun pr => (pr.1 + 1, pr.2))

/-- datetime.fromisoformat restricted to the YYYY-MM-DDTHH:MM:SS shapes the
pipeline regex produces; None on out-of-range fields exactly as
fromisoformat raises ValueError there. -/
def fromIsoShape : List Char → Option DateTime
  | [y1, y2, y3, y4, '-', m1, m2, '-', d1, d2, 'T',
     h1, h2, ':', n1, n2, ':', s1, s2] =>
    if isDig y1 && isDig y2 && isDig y3 && isDig y4 && isDig m1 && isDig m2 &&
       isDig d1 && isDig d2 && isDig h1 && isDig h2 && isDig n1 && isDig n2 &&
       isDig s1 && isDig s2 then
      let y := 1000 * digVal y1 + 100 * digVal y2 + 10 * digVal y3 + digVal y4
      let mo := 10 * digVal m1 + digVal m2
      let da := 10 * digVal d1 + digVal d2
      let h := 10 * digVal h1 + digVal h2
      let mi := 10 * digVal n1 + digVal n2
      let se := 10 * digVal s1 + digVal s2
      if 1 ≤ y && 1 ≤ mo && mo ≤ 12 && 1 ≤ da && da ≤ daysInMonth y mo &&
         h ≤ 23 && mi ≤ 59 && se ≤ 59 then
        some ⟨⟨y, mo, da⟩, h, mi, se⟩
      else none
    else none
  | _ => none

/-- ForecastPeriodConverter.parse_forecast_timestamp: strip a trailing
-08:00 offset and parse the remaining ISO timestamp, returning none when
parsing fails. -/
def parse_forecast_timestamp (timestamp_str : String) : Option DateTime :=
  let s :=
    if pyEndsWith timestamp_str "-08:00" then
      String.mk (timestamp_str.data.take (timestamp_str.data.length - 6))
    else timestamp_str
  fromIsoShape s.data

/-! ## The period-header grammar

convert_forecast_periods uses the pattern
\.((REST\s+OF\s+[A-Z]+)|(THIS\s+AFTERNOON)|([A-Z].3-7(?:\s+NIGHT)?))
followed by two or three dots, then a lazy body up to a lookahead
consisting of a newline and another header, or end of input.
detect_corruption_patterns uses the same pattern with only the third
header alternative.  The flag ext below selects between the two grammars.

The scanners below resolve the re backtracking deterministically:

* greedy runs such as [A-Z]+ followed by a character outside the class
  can never usefully backtrack, so a maximal run is taken;
* the alternatives are tried in the written order, and a later
  alternative is tried when an earlier header matches but the following
  dots do not, exactly as the engine backtracks. -/

/-- Two dots followed by an optional third (the greedy \.\.\.? tail of a
period header). -/
def matchDots : List Char → Option (List Char)
  | '.' :: '.' :: '.' :: rest => some rest
  | '.' :: '.' :: rest => some rest
  | _ => none

/-- Header alternative REST\s+OF\s+[A-Z]+ ; returns the remainder after
the header on success. -/
def matchRestOf (cs : List Char) : Option (List Char) := do
  let r1 ← dropLit "REST".data cs
  let (w1, r2) := splitRun isPyWs r1
  if w1.isEmpty then none else
  let r3 ← dropLit "OF".data r2
  let (w2, r4) := splitRun isPyWs r3
  if w2.isEmpty then none else
  let (u, r5) := splitRun isUp r4
  if u.isEmpty then none else
  some r5

/-- Header alternative THIS\s+AFTERNOON. -/
def matchThisAfternoon (cs : List Char) : Option (List Char) := do
  let r1 ← dropLit "THIS".data cs
  let (w1, r2) := splitRun isPyWs r1
  if w1.isEmpty then none else
  dropLit "AFTERNOON".data r2

/-- Combine a header-alternative result with the following dots, keeping
the position where the header ends. -/
def altDots (hr : Option (List Char)) : Option (List Char × List Char) :=
  hr.bind (fun r => (matchDots r).map (fun rest => (r, rest)))

/-- Header alternative [A-Z].3-7(?:\s+NIGHT)? followed by the dots.  The
greedy engine first tries to take the optional NIGHT suffix; if the dots
then fail it retries without it. -/
def matchWeekdayDots (cs : List Char) : Option (List Char × List Char) :=
  let u := (splitRun isUp cs).1
  let r := (splitRun isUp cs).2
  if 3 ≤ u.length && u.length ≤ 7 then
    let w := (splitRun isPyWs r).1
    let r2 := (splitRun isPyWs r).2
    let withNight : Option (List Char × List Char) :=
      if !w.isEmpty && ("NIGHT".data.isPrefixOf r2) then
        altDots (some (r2.drop 5))
      else none
    withNight.or (altDots (some r))
  else none

/-- Match a full period header (chosen alternative plus dots) at the head
of the list.  Returns the literally matched header text together with the
remainder after the dots.  When ext is false only the weekday alternative
is available (the grammar of the corruption detector). -/
def matchHeaderDots (ext : Bool) (cs : List Char) : Option (List Char × List Char) :=
  let res :=
    (if ext then
       (altDots (matchRestOf cs)).or (altDots (matchThisAfternoon cs))
     else none).or (matchWeekdayDots cs)
  res.map (fun pr => (cs.take (cs.length - pr.1.length), pr.2))

/-- re.findall for the full period pattern, recursing on a fuel bound.
Every recursive call consumes at least one character of input, so the
initial fuel of length + 1 supplied by scanPeriods can never run out; the
fuel merely makes the recursion structural.

The lookahead (?=\n\.HEADER\.\.\.?|\Z): true when the remaining text
starts a new period header on a fresh line.  End of input is handled by
the caller (takeContent stops there anyway). -/
def lookaheadAt (ext : Bool) : List Char → Bool
  | '\n' :: '.' :: r => (matchHeaderDots ext r).isSome
  | _ => false

/-- The lazy body (.*?) of a period: consume characters until the first
position where the next-header lookahead holds, or until end of input. -/
def takeContent (ext : Bool) : List Char → List Char × List Char
  | [] => ([], [])
  | c :: rest =>
    if lookaheadAt ext (c :: rest) then ([], c :: rest)
    else
      let pr := takeContent ext rest
      (c :: pr.1, pr.2)

/-- Fuelled body of the period findall: scan left to right, matching a
header at each dot, then take the lazy body up to the lookahead and
continue from there. -/
def scanPeriodsF (ext : Bool) : Nat → List Char → List (String × String)
  | 0, _ => []
  | _, [] => []
  | fuel + 1, c :: rest =>
    if c = '.' then
      match matchHeaderDots ext rest with
      | some pr =>
        let tc := takeContent ext pr.2
        (String.mk pr.1, String.mk tc.1) :: scanPeriodsF ext fuel tc.2
      | none => scanPeriodsF ext fuel rest
    else scanPeriodsF ext fuel rest

/-- re.findall for the full period pattern: the (header name, body)
capture pairs in order. -/
def scanPeriods (ext : Bool) (cs : List Char) : List (String × String) :=
  scanPeriodsF ext (cs.length + 1) cs

/-! ## The relative-day mapper (convert_forecast_periods main loop) -/

/-- One output row: the label D-offset-DAY or D-offset-NIGHT (kept as the
offset plus a night flag, rendered by renderPeriod), the resolved target
date, and the cleaned single-line content. -/
structure PeriodOut where
  offset : Nat
  night : Bool
  date : Date
  content : String
  deriving DecidableEq, Repr

/-- Content cleanup of one period: strip, collapse whitespace runs, and
rename the wave sub-header, exactly as in the loop body. -/
def cleanContent (period_content : String) : String :=
  replaceSub (String.mk (collapseWs (pyStrip period_content.data)))
    "Wave Detail:" "Waves:"

/-- The look-at-next-period test of the final else branch: the offset of a
plain weekday period is bumped when a next period exists and is neither a
night period nor one of TONIGHT, TODAY, REST OF TONIGHT, THIS AFTERNOON. -/
def dayIncrements : List (String × String) → Bool
  | [] => false
  | (next, _) :: _ =>
    !(pyEndsWith next " NIGHT") &&
    !(next = "TONIGHT" || next = "TODAY" || next = "REST OF TONIGHT" ||
      next = "THIS AFTERNOON")

/-- The if/elif chain of the loop body: given a period name, the remaining
periods and the current day offset, produce the night flag of the label
and the offset for the next iteration.  Branches appear in source order:
REST OF TODAY, REST OF TONIGHT, THIS AFTERNOON, TONIGHT, TODAY, a name
ending in NIGHT, and finally the plain weekday case. -/
def stepInfo (period_name : String) (rest : List (String × String))
    (off : Nat) : Bool × Nat :=
  if period_name = "REST OF TODAY" then (false, off)
  else if period_name = "REST OF TONIGHT" then (true, off + 1)
  else if period_name = "THIS AFTERNOON" then (false, off)
  else if period_name = "TONIGHT" then (true, off + 1)
  else if period_name = "TODAY" then (false, off)
  else if pyEndsWith period_name " NIGHT" then (true, off + 1)
  else (false, if dayIncrements rest then off + 1 else off)

/-- The sequential loop over the extracted periods, threading the
current_day_offset accumulator.  The target date is the forecast date
plus the current offset (the source leaves the date untouched when the
offset is zero, which coincides with adding zero days). -/
def convertAux (d : Date) : Nat → List (String × String) → List PeriodOut
  | _, [] => []
  | off, (period_name, period_content) :: rest =>
    let si := stepInfo period_name rest off
    let targetDate := if 0 < off then d.addDays off else d
    ⟨off, si.1, targetDate, cleanContent period_content⟩ ::
      convertAux d si.2 rest

/-- The mapper applied to an ordered period list with the initial offset 0
used by the script (the issuance-hour conditional also yields 0). -/
def convertPeriods (d : Date) (ps : List (String × String)) : List PeriodOut :=
  convertAux d 0 ps

/-- Rendering of one output line, matching the f-string
D-offset-DAY/NIGHT, the date in parentheses, then the content. -/
def renderPeriod (p : PeriodOut) : String :=
  (if p.night then "D" ++ toString p.offset ++ "_NIGHT"
   else "D" ++ toString p.offset ++ "_DAY") ++
  " (" ++ formatDate p.date ++ ") " ++ p.content

/-- ForecastPeriodConverter.convert_forecast_periods: extract the periods
with the full pattern; when none match return the text unchanged,
otherwise map every period and join the lines with newlines. -/
def convert_forecast_periods (forecast_text : String)
    (forecast_time : DateTime) : String :=
  let periods := scanPeriods true forecast_text.data
  if periods.isEmpty then forecast_text
  else
    let current_day_offset : Nat := if forecast_time.hour < 6 then 0 else 0
    String.intercalate "\n"
      ((convertAux forecast_time.date current_day_offset periods).map
        renderPeriod)

/-! ## Corruption pattern scanners

Each function below is the re.findall of one pattern from
ForecastCorruptionDetector, written as a deterministic scanner.  A step
function tries to match its pattern exactly at the head of the input; the
generic driver scanAll advances one character at a time and restarts
after each match, which is the scanning behaviour of findall. -/

/-- Fuelled generic findall driver: every step function below consumes at
least one character on a match, so the initial fuel of length + 1
supplied by scanAll can never run out. -/
def scanAllF (step : List Char → Option (String × List Char)) :
    Nat → List Char → List String
  | 0, _ => []
  | _, [] => []
  | fuel + 1, c :: rest =>
    match step (c :: rest) with
    | some pr => pr.1 :: scanAllF step fuel pr.2
    | none => scanAllF step fuel rest

/-- Generic findall driver: scan for matches left to right, restarting
after each match end. -/
def scanAll (step : List Char → Option (String × List Char))
    (cs : List Char) : List String :=
  scanAllF step (cs.length + 1) cs

/-- Step for \d.3\s+FZUS\d+.*?RRA (category NWS_PRODUCT_CODE): three
digits, a whitespace run, FZUS, a digit run, then lazily up to the first
RRA. -/
def stepProductCode (cs : List Char) : Option (String × List Char) :=
  match cs with
  | a :: b :: c :: r =>
    if isDig a && isDig b && isDig c then
      let w := (splitRun isPyWs r).1
      let r2 := (splitRun isPyWs r).2
      if w.isEmpty then none else
      match dropLit "FZUS".data r2 with
      | none => none
      | some r3 =>
        let ds := (splitRun isDig r3).1
        let r4 := (splitRun isDig r3).2
        if ds.isEmpty then none else
        match findLitIdx "RRA".data r4 with
        | none => none
        | some i =>
          let stop := cs.length - r4.length + i + 3
          some (String.mk (cs.take stop), cs.drop stop)
    else none
  | _ => none

/-- Step for a plain literal pattern such as CWFLOX. -/
def stepLit (lit : List Char) (cs : List Char) : Option (String × List Char) :=
  (dropLit lit cs).map (fun r => (String.mk lit, r))

/-- Step for LITERAL.*?LITERAL with DOTALL (used by the NWS_HEADER and
NWS_ATTRIBUTION patterns): the lazy gap ends at the first occurrence of
the closing literal. -/
def stepLitLazyLit (a b : List Char) (cs : List Char) :
    Option (String × List Char) :=
  match dropLit a cs with
  | none => none
  | some r =>
    match findLitIdx b r with
    | none => none
    | some i =>
      let stop := a.length + i + b.length
      some (String.mk (cs.take stop), cs.drop stop)

/-- The inner piece out \d+ NM of the NWS_AREA_DESCRIPTION pattern. -/
def matchOutNM (cs : List Char) : Option (List Char) :=
  match dropLit "out ".data cs with
  | none => none
  | some r =>
    let ds := (splitRun isDig r).1
    let r2 := (splitRun isDig r).2
    if ds.isEmpty then none else dropLit " NM".data r2

/-- First position where a sub-matcher succeeds (the stop of a lazy gap
before a non-literal piece). -/
def findMatchIdx (m : List Char → Option (List Char)) :
    List Char → Option (Nat × List Char)
  | [] => (m []).map (fun r => (0, r))
  | c :: rest =>
    match m (c :: rest) with
    | some r => some (0, r)
    | none => (findMatchIdx m rest).map (fun pr => (pr.1 + 1, pr.2))

/-- Step for Point.*?out \d+ NM.*?Sanctuary (NWS_AREA_DESCRIPTION). -/
def stepAreaDescription (cs : List Char) : Option (String × List Char) :=
  match dropLit "Point".data cs with
  | none => none
  | some r =>
    match findMatchIdx matchOutNM r with
    | none => none
    | some pr =>
      match findLitIdx "Sanctuary".data pr.2 with
      | none => none
      | some j =>
        let stop := cs.length - pr.2.length + j + 9
        some (String.mk (cs.take stop), cs.drop stop)

/-- Step for PZZ\d+-\d+- (NWS_ZONE_CODE). -/
def stepZoneCode (cs : List Char) : Option (String × List Char) :=
  match dropLit "PZZ".data cs with
  | none => none
  | some r =>
    let d1 := (splitRun isDig r).1
    let r1 := (splitRun isDig r).2
    if d1.isEmpty then none else
    match r1 with
    | '-' :: r2 =>
      let d2 := (splitRun isDig r2).1
      let r3 := (splitRun isDig r2).2
      if d2.isEmpty then none else
      match r3 with
      | '-' :: r4 =>
        let stop := cs.length - r4.length
        some (String.mk (cs.take stop), r4)
      | _ => none
    | _ => none

/-- Step for \.Synopsis.*?National Park.*?\. (NWS_SYNOPSIS): the lazy
gaps end at the first National Park and the first following dot. -/
def stepSynopsis (cs : List Char) : Option (String × List Char) :=
  match dropLit ".Synopsis".data cs with
  | none => none
  | some r =>
    match findLitIdx "National Park".data r with
    | none => none
    | some i =>
      let r2 := r.drop (i + 13)
      match findLitIdx ".".data r2 with
      | none => none
      | some j =>
        let stop := cs.length - r2.length + j + 1
        some (String.mk (cs.take stop), r2.drop (j + 1))

/-- Lines consisting of exactly three digits: the MULTILINE pattern with
caret, three digits, dollar (STANDALONE_NUMBER). -/
def findStandaloneNumbers (s : String) : List String :=
  (splitOnLit "\n".data s.data).filterMap
    (fun l => if l.data.length = 3 && l.data.all isDig then some l else none)

/-- Lines consisting of exactly one full timestamp, the anchored MULTILINE
form of the timestamp pattern (EMBEDDED_TIMESTAMP inside nws patterns). -/
def findStandaloneTimestamps (s : String) : List String :=
  (splitOnLit "\n".data s.data).filterMap
    (fun l => if tsShape l.data = some [] then some l else none)

/-- findall of the unanchored timestamp pattern (the multiple-timestamps
check). -/
def findTimestamps (s : String) : List String :=
  scanAll (fun cs => (tsShape cs).map (fun r => (String.mk (cs.take 25), r)))
    s.data

/-! Truncated-header patterns.  The trailing \s*$ of TRUNCATED_PERIOD
matches when the maximal whitespace run after the name reaches end of
input or contains a newline (dollar under MULTILINE); scanning resumes
after the run, which is equivalent to resuming at the match end because
no match can begin inside whitespace. -/

/-- \s*$ tail test. -/
def wsTailOk (cs : List Char) : Bool :=
  (splitRun isPyWs cs).2.isEmpty || (splitRun isPyWs cs).1.contains '\n'

/-- Step for \.([A-Z].1-2)(?:\s+NIGHT)?\s*$ (TRUNCATED_PERIOD); the
capture is just the one or two letters. -/
def stepTruncatedPeriod (cs : List Char) : Option (String × List Char) :=
  match cs with
  | '.' :: r =>
    let u := (splitRun isUp r).1
    let r2 := (splitRun isUp r).2
    if u.length = 1 || u.length = 2 then
      let nightRest : Option (List Char) :=
        let w := (splitRun isPyWs r2).1
        let r3 := (splitRun isPyWs r2).2
        if !w.isEmpty && "NIGHT".data.isPrefixOf r3 then some (r3.drop 5)
        else none
      match nightRest with
      | some r4 =>
        if wsTailOk r4 then some (String.mk u, (splitRun isPyWs r4).2)
        else if wsTailOk r2 then some (String.mk u, (splitRun isPyWs r2).2)
        else none
      | none =>
        if wsTailOk r2 then some (String.mk u, (splitRun isPyWs r2).2)
        else none
    else none
  | _ => none

/-- Two dots not followed by a third, the tail of INCOMPLETE_DOTS. -/
def twoDotsNoThird (cap : List Char) (rr : List Char) :
    Option (String × List Char) :=
  match rr with
  | '.' :: '.' :: rest =>
    match rest with
    | '.' :: _ => none
    | _ => some (String.mk cap, rest)
  | _ => none

/-- The optional (?:\s+NIGHT)? of the truncated and anomalous header
patterns, keeping the literally matched extension. -/
def optNight (r2 : List Char) : Option (List Char × List Char) :=
  let w := (splitRun isPyWs r2).1
  let r3 := (splitRun isPyWs r2).2
  if !w.isEmpty && "NIGHT".data.isPrefixOf r3 then
    some (w ++ "NIGHT".data, r3.drop 5)
  else none

/-- Step for \.([A-Z].3-7(?:\s+NIGHT)?)\.\.(?!\.) (INCOMPLETE_DOTS). -/
def stepIncompleteDots (cs : List Char) : Option (String × List Char) :=
  match cs with
  | '.' :: r =>
    let u := (splitRun isUp r).1
    let r2 := (splitRun isUp r).2
    if 3 ≤ u.length && u.length ≤ 7 then
      match optNight r2 with
      | some pr => (twoDotsNoThird (u ++ pr.1) pr.2).or (twoDotsNoThird u r2)
      | none => twoDotsNoThird u r2
    else none
  | _ => none

/-- A literal backslash, one non-newline character, then no dot: the tail
the MISSING_DOTS pattern actually requires, because its raw string spells
a backslash escape rather than a dot. -/
def backslashAnyNoDot (cap : List Char) (rr : List Char) :
    Option (String × List Char) :=
  match rr with
  | '\\' :: c2 :: rest =>
    if c2 = '\n' then none
    else
      match rest with
      | '.' :: _ => none
      | _ => some (String.mk cap, rest)
  | _ => none

/-- Step for \.([A-Z].3-7(?:\s+NIGHT)?)\\.(?!\.) (MISSING_DOTS). -/
def stepMissingDots (cs : List Char) : Option (String × List Char) :=
  match cs with
  | '.' :: r =>
    let u := (splitRun isUp r).1
    let r2 := (splitRun isUp r).2
    if 3 ≤ u.length && u.length ≤ 7 then
      match optNight r2 with
      | some pr => (backslashAnyNoDot (u ++ pr.1) pr.2).or (backslashAnyNoDot u r2)
      | none => backslashAnyNoDot u r2
    else none
  | _ => none

/-! Anomalous-header patterns. -/

/-- Step for \.([A-Z].3)\s+THROUGH\s+([A-Z].3)\.\.\. (MULTI_DAY_RANGE).
findall returns a pair of groups here; the detail formatting reproduces
the Python tuple rendering. -/
def stepMultiDayRange (cs : List Char) : Option (String × List Char) :=
  match cs with
  | '.' :: r =>
    let u3 := r.take 3
    if u3.length = 3 && u3.all isUp then
      let r1 := r.drop 3
      let w := (splitRun isPyWs r1).1
      let r2 := (splitRun isPyWs r1).2
      if w.isEmpty then none else
      match dropLit "THROUGH".data r2 with
      | none => none
      | some r3 =>
        let w2 := (splitRun isPyWs r3).1
        let r4 := (splitRun isPyWs r3).2
        if w2.isEmpty then none else
        let v3 := r4.take 3
        if v3.length = 3 && v3.all isUp then
          match dropLit "...".data (r4.drop 3) with
          | none => none
          | some r5 =>
            some ("(" ++ sq ++ String.mk u3 ++ sq ++ ", " ++ sq ++
                  String.mk v3 ++ sq ++ ")", r5)
        else none
    else none
  | _ => none

/-- The seven spelled-out weekday names of the FULL_DAY_NAME patterns. -/
def dayNames : List String :=
  ["MONDAY", "TUESDAY", "WEDNESDAY", "THURSDAY", "FRIDAY", "SATURDAY",
   "SUNDAY"]

/-- Step for \.(MONDAY|...|SUNDAY)\.\.\. (FULL_DAY_NAME). -/
def stepFullDayName (cs : List Char) : Option (String × List Char) :=
  match cs with
  | '.' :: r =>
    dayNames.findSome? (fun dn =>
      match dropLit dn.data r with
      | none => none
      | some r2 =>
        match dropLit "...".data r2 with
        | none => none
        | some r3 => some (dn, r3))
  | _ => none

/-- Step for \.(MONDAY|...|SUNDAY)\s+NIGHT\.\.\. (FULL_DAY_NIGHT_NAME). -/
def stepFullDayNightName (cs : List Char) : Option (String × List Char) :=
  match cs with
  | '.' :: r =>
    dayNames.findSome? (fun dn =>
      match dropLit dn.data r with
      | none => none
      | some r2 =>
        let w := (splitRun isPyWs r2).1
        let r3 := (splitRun isPyWs r2).2
        if w.isEmpty then none else
        match dropLit "NIGHT...".data r3 with
        | none => none
        | some r4 => some (dn, r4))
  | _ => none

/-! ## ForecastCorruptionDetector -/

/-- The corruption_indicators dictionary. -/
structure Verdict where
  has_corruption : Bool
  corruption_types : List String
  corruption_details : List String
  deriving DecidableEq, Repr

/-- The self.nws_patterns table: findall function and category name. -/
def nws_patterns : List ((String → List String) × String) :=
  [(fun s => scanAll stepProductCode s.data, "NWS_PRODUCT_CODE"),
   (fun s => scanAll (stepLit "CWFLOX".data) s.data, "NWS_PRODUCT_NAME"),
   (fun s => scanAll (stepLitLazyLit "Coastal Waters Forecast".data
      "DELAYED".data) s.data, "NWS_HEADER"),
   (fun s => scanAll (stepLitLazyLit "National Weather Service".data
      "CA".data) s.data, "NWS_ATTRIBUTION"),
   (fun s => scanAll stepAreaDescription s.data, "NWS_AREA_DESCRIPTION"),
   (fun s => scanAll stepZoneCode s.data, "NWS_ZONE_CODE"),
   (fun s => scanAll stepSynopsis s.data, "NWS_SYNOPSIS"),
   (findStandaloneNumbers, "STANDALONE_NUMBER"),
   (findStandaloneTimestamps, "EMBEDDED_TIMESTAMP")]

/-- The self.truncated_patterns table. -/
def truncated_patterns : List ((String → List String) × String) :=
  [(fun s => scanAll stepTruncatedPeriod s.data, "TRUNCATED_PERIOD"),
   (fun s => scanAll stepIncompleteDots s.data, "INCOMPLETE_DOTS"),
   (fun s => scanAll stepMissingDots s.data, "MISSING_DOTS")]

/-- The self.anomalous_patterns table. -/
def anomalous_patterns : List ((String → List String) × String) :=
  [(fun s => scanAll stepMultiDayRange s.data, "MULTI_DAY_RANGE"),
   (fun s => scanAll stepFullDayName s.data, "FULL_DAY_NAME"),
   (fun s => scanAll stepFullDayNightName s.data, "FULL_DAY_NIGHT_NAME")]

/-- The self.non_weather_keywords table. -/
def non_weather_keywords : List String :=
  ["high pressure center was located",
   "thermal low was over",
   "pattern will not change",
   "including the Channel Islands",
   "out 60 NM",
   "National Marine Sanctuary"]

/-- One family of pattern checks: for every (pattern, category) pair with
a non-empty findall result, set the flag, append the category and append
the first cap matches (3 in every use) rendered through mapDetail. -/
def applyCheck (content : String) (mapDetail : String → String) (cap : Nat)
    (v : Verdict) (fc : (String → List String) × String) : Verdict :=
  let ms := fc.1 content
  if ms.isEmpty then v
  else
    ⟨true, v.corruption_types ++ [fc.2],
     v.corruption_details ++ (ms.take cap).map mapDetail⟩

def applyChecks (content : String) (mapDetail : String → String) (cap : Nat)
    (checks : List ((String → List String) × String)) (v : Verdict) :
    Verdict :=
  checks.foldl (applyCheck content mapDetail cap) v

/-- The abnormally-long-period loop: one category entry and one detail per
period whose stripped content exceeds 1000 characters. -/
def longPeriodStep (v : Verdict) (nc : String × String) : Verdict :=
  let n := (pyStrip nc.2.data).length
  if 1000 < n then
    ⟨true, v.corruption_types ++ ["ABNORMALLY_LONG_PERIOD"],
     v.corruption_details ++
       ["." ++ nc.1 ++ ": " ++ toString n ++ " chars"]⟩
  else v

def longPeriodCheck (periods : List (String × String)) (v : Verdict) :
    Verdict :=
  periods.foldl longPeriodStep v

/-- The multiple-timestamps check: any timestamp occurrence in the body
(the issuance timestamp was already stripped) sets the flag, with at most
two example matches kept. -/
def embeddedTimestampsCheck (content : String) (v : Verdict) : Verdict :=
  let ms := findTimestamps content
  if 0 < ms.length then
    ⟨true, v.corruption_types ++ ["EMBEDDED_TIMESTAMPS"],
     v.corruption_details ++ ms.take 2⟩
  else v

/-- The non-weather keyword loop: case-insensitive substring search, one
detail per keyword, category appended only once. -/
def nonWeatherStep (content : String) (v : Verdict) (kw : String) :
    Verdict :=
  if containsSub (lowerS content).data (lowerS kw).data then
    ⟨true,
     if "NON_WEATHER_CONTENT" ∈ v.corruption_types then
       v.corruption_types
     else v.corruption_types ++ ["NON_WEATHER_CONTENT"],
     v.corruption_details ++ [kw]⟩
  else v

def nonWeatherCheck (content : String) (v : Verdict) : Verdict :=
  non_weather_keywords.foldl (nonWeatherStep content) v

/-- The extremely-short-period loop (guarded by a non-empty period list in
the source): one detail per period with stripped content under 10
characters, category appended only once. -/
def shortPeriodStep (v : Verdict) (nc : String × String) : Verdict :=
  let clean := String.mk (pyStrip nc.2.data)
  if clean.length < 10 then
    ⟨true,
     if "EXTREMELY_SHORT_PERIOD" ∈ v.corruption_types then
       v.corruption_types
     else v.corruption_types ++ ["EXTREMELY_SHORT_PERIOD"],
     v.corruption_details ++
       ["." ++ nc.1 ++ ": " ++ sq ++ clean ++ sq]⟩
  else v

def shortPeriodCheck (periods : List (String × String)) (v : Verdict) :
    Verdict :=
  if 0 < periods.length then periods.foldl shortPeriodStep v
  else v

/-- ForecastCorruptionDetector.detect_corruption_patterns: the checks in
source order starting from the all-clear verdict. -/
def detect_corruption_patterns (forecast_content : String) : Verdict :=
  let v1 := applyChecks forecast_content (fun m => m) 3 nws_patterns
    ⟨false, [], []⟩
  let v2 := applyChecks forecast_content (fun m => "." ++ m) 3
    truncated_patterns v1
  let v3 := applyChecks forecast_content (fun m => "." ++ m) 3
    anomalous_patterns v2
  let periods := scanPeriods false forecast_content.data
  let v4 := longPeriodCheck periods v3
  let v5 := embeddedTimestampsCheck forecast_content v4
  let v6 := nonWeatherCheck forecast_content v5
  shortPeriodCheck periods v6

/-- The invariant every check preserves: the flag is set exactly when some
category has been recorded, and a clear flag means no details either. -/
def VerdictInv (v : Verdict) : Prop :=
  (v.has_corruption = true ↔ v.corruption_types ≠ []) ∧
  (v.has_corruption = false → v.corruption_details = [])

/-! ## WarningExtractor (ForecastPeriodConverter.extract_warnings)

Warning pattern: a line starting with three dots, a lazy dot-free body,
three dots, then either a space and a newline or an end of line.  findall
collects the bodies; re.sub with the same pattern deletes the matches;
afterwards blank-line runs are collapsed and the result stripped. -/

/-- Match the warning pattern at a line start.  Returns the captured
body, the remaining text after the match, and whether the match end sits
at a fresh line start (it consumed a newline). -/
def warnStep (cs : List Char) : Option (String × List Char × Bool) :=
  match dropLit "...".data cs with
  | none => none
  | some r =>
    let body := (splitRun (fun c => !(c = '.')) r).1
    let r2 := (splitRun (fun c => !(c = '.')) r).2
    match dropLit "...".data r2 with
    | none => none
    | some r3 =>
      match r3 with
      | ' ' :: '\n' :: r4 => some (String.mk body, r4, true)
      | [] => some (String.mk body, [], false)
      | '\n' :: _ => some (String.mk body, r3, false)
      | _ => none

/-- Fuelled single pass implementing both re.findall and re.sub for the
warning pattern: collect the captures and the text with the matched spans
deleted.  The boolean tracks whether the position is at a line start;
every warning match consumes at least the six dots, so the initial fuel
of length + 1 supplied by scanWarnings can never run out. -/
def scanWarningsF : Nat → List Char → Bool → List String × List Char
  | 0, cs, _ => ([], cs)
  | _, [], _ => ([], [])
  | fuel + 1, c :: rest, atStart =>
    if atStart then
      match warnStep (c :: rest) with
      | some wr =>
        let pr := scanWarningsF fuel wr.2.1 wr.2.2
        (wr.1 :: pr.1, pr.2)
      | none =>
        let pr := scanWarningsF fuel rest (c = '\n')
        (pr.1, c :: pr.2)
    else
      let pr := scanWarningsF fuel rest (c = '\n')
      (pr.1, c :: pr.2)

/-- findall plus sub for the warning pattern over a whole body. -/
def scanWarnings (cs : List Char) (atStart : Bool) :
    List String × List Char :=
  scanWarningsF (cs.length + 1) cs atStart

/-- re.sub replacing a newline, a whitespace run containing another
newline, by two newlines.  The match extends through the last newline of
the run; no further match can start inside the remaining whitespace, so
scanning resumes after the run. -/
def collapseBlankRunsF : Nat → List Char → List Char
  | 0, cs => cs
  | _, [] => []
  | fuel + 1, c :: rest =>
    if c = '\n' then
      let w := (splitRun isPyWs rest).1
      let r := (splitRun isPyWs rest).2
      if w.contains '\n' then
        let after := (w.reverse.takeWhile (fun x => !(x = '\n'))).reverse
        '\n' :: '\n' :: (after ++ collapseBlankRunsF fuel r)
      else '\n' :: collapseBlankRunsF fuel rest
    else c :: collapseBlankRunsF fuel rest

/-- The blank-line collapsing re.sub with fuel length + 1, which never
runs out because each step consumes at least one character. -/
def collapseBlankRuns (cs : List Char) : List Char :=
  collapseBlankRunsF (cs.length + 1) cs

/-- Cleaning of one warning body: strip then collapse whitespace runs. -/
def cleanWarning (w : String) : String :=
  String.mk (collapseWs (pyStrip w.data))

/-- ForecastPeriodConverter.extract_warnings. -/
def extract_warnings (forecast_text : String) : Option String × String :=
  let pr := scanWarnings forecast_text.data true
  if pr.1.isEmpty then (none, forecast_text)
  else
    let warning_paragraph :=
      "WARNING: " ++ String.intercalate "; " (pr.1.map cleanWarning)
    let clean_content := String.mk (pyStrip (collapseBlankRuns pr.2))
    (some warning_paragraph, clean_content)

/-! ## NWSForecastProcessor -/

/-- The timestamp and stripped body of one $$-delimited block, when the
block strips to something non-empty and contains a timestamp.  Both
analyze_forecast_file and process_forecast_file locate the timestamp with
the same search and slice the content after its end. -/
def blockBody (block : String) : Option (String × String) :=
  let b := pyStrip block.data
  match searchTimestamp b with
  | none => none
  | some pt => some (pt.2, String.mk (pyStrip (b.drop (pt.1 + 25))))

/-- The corrupted entry contributed by one block in
NWSForecastProcessor.analyze_forecast_file: its timestamp, recorded when
the post-timestamp content is non-empty and the detector fires. -/
def analyzeBlock (block : String) : Option String :=
  match blockBody block with
  | none => none
  | some tb =>
    if tb.2 ≠ "" ∧ (detect_corruption_patterns tb.2).has_corruption then
      some tb.1
    else none

/-- NWSForecastProcessor.analyze_forecast_file: the corrupted timestamps
collected over all $$-delimited blocks of the file (the script keeps the
full records; only the timestamp set is consumed downstream). -/
def analyze_forecast_file (content : String) : List String :=
  (splitOnLit "$$".data content.data).filterMap analyzeBlock

/-- The body of the per-block loop of
NWSForecastProcessor.process_forecast_file.  none represents a continue statement
(the block contributes nothing to converted_blocks); some s is the string
appended for this block. -/
def processBlock (corrupted_timestamps : List String) (block : String) :
    Option String :=
  let b := String.mk (pyStrip block.data)
  if b = "" then some ""
  else
    match searchTimestamp b.data with
    | none => some b
    | some pt =>
      let timestamp_str := pt.2
      if timestamp_str ∈ corrupted_timestamps then none
      else
        match parse_forecast_timestamp timestamp_str with
        | none => some b
        | some forecast_time =>
          let forecast_content := String.mk (pyStrip (b.data.drop (pt.1 + 25)))
          if forecast_content = "" then none
          else
            let issued_line := "Issued: " ++ timestamp_str ++ "\n\n"
            let wc := extract_warnings forecast_content
            let converted := convert_forecast_periods wc.2 forecast_time
            match wc.1 with
            | some warnings => some (issued_line ++ warnings ++ "\n\n" ++ converted)
            | none => some (issued_line ++ converted)

/-- NWSForecastProcessor.process_forecast_file: the converted_blocks list
(the file writer then emits the non-blank entries separated by the $$
delimiter). -/
def process_forecast_file (content : String) : List String :=
  (splitOnLit "$$".data content.data).filterMap
    (processBlock (analyze_forecast_file content))

/-! ## Lemmas about the relative-day mapper -/

theorem Date.addDays_add (d : Date) (m n : Nat) :
    d.addDays (m + n) = (d.addDays m).addDays n := by
  induction m generalizing d with
  | zero => simp [Date.addDays]
  | succ k ih =>
    have h1 : k + 1 + n = (k + n) + 1 := by omega
    rw [h1]
    show Date.addDays (nextDay d) (k + n) = _
    rw [ih (nextDay d)]
    rfl

theorem stepInfo_snd_bounds (n : String) (r : List (String × String))
    (off : Nat) :
    off ≤ (stepInfo n r off).2 ∧ (stepInfo n r off).2 ≤ off + 1 := by
  unfold stepInfo
  repeat' split
  all_goals simp_all

theorem targetDate_eq (d : Date) (off : Nat) :
    (if 0 < off then d.addDays off else d) = d.addDays off := by
  cases off with
  | zero => simp [Date.addDays]
  | succ k => simp

/-- Every emitted period carries an offset at least the starting offset,
and its date is the forecast date advanced by its own offset. -/
theorem convertAux_mem (d : Date) :
    ∀ (ps : List (String × String)) (off : Nat) (x : PeriodOut),
      x ∈ convertAux d off ps →
      off ≤ x.offset ∧ x.date = d.addDays x.offset := by
  intro ps
  induction ps with
  | nil => intro off x hx; simp [convertAux] at hx
  | cons p rest ih =>
    intro off x hx
    obtain ⟨name, c⟩ := p
    simp only [convertAux, List.mem_cons] at hx
    rcases hx with rfl | hx
    · refine ⟨le_refl _, ?_⟩
      simpa using targetDate_eq d off
    · have h2 := ih _ x hx
      have hb := stepInfo_snd_bounds name rest off
      exact ⟨le_trans hb.1 h2.1, h2.2⟩

/-- The first emitted period of a non-empty list has exactly the current
offset. -/
theorem convertAux_cons (d : Date) (name c : String)
    (rest : List (String × String)) (off : Nat) :
    convertAux d off ((name, c) :: rest) =
      ⟨off, (stepInfo name rest off).1,
       if 0 < off then d.addDays off else d, cleanContent c⟩ ::
      convertAux d (stepInfo name rest off).2 rest := rfl

theorem convertAux_chain_le (d : Date) :
    ∀ (ps : List (String × String)) (off : Nat),
      List.Chain' (fun a b => a.offset ≤ b.offset) (convertAux d off ps) := by
  intro ps
  induction ps with
  | nil => intro off; simp [convertAux]
  | cons p rest ih =>
    intro off
    obtain ⟨name, c⟩ := p
    rw [convertAux_cons]
    refine List.Chain'.cons' (ih _) ?_
    intro y hy
    have hmem : y ∈ convertAux d (stepInfo name rest off).2 rest := by
      cases hl : convertAux d (stepInfo name rest off).2 rest with
      | nil => rw [hl] at hy; simp at hy
      | cons z zs =>
        rw [hl] at hy
        simp only [List.head?_cons, Option.mem_some_iff] at hy
        rw [← hy]
        exact List.mem_cons_self _ _
    have h2 := (convertAux_mem d rest _ y hmem).1
    have hb := stepInfo_snd_bounds name rest off
    simp only
    omega

theorem convertAux_chain_dates (d : Date) :
    ∀ (ps : List (String × String)) (off : Nat),
      List.Chain' (fun a b => ∃ k, b.date = a.date.addDays k)
        (convertAux d off ps) := by
  intro ps
  induction ps with
  | nil => intro off; simp [convertAux]
  | cons p rest ih =>
    intro off
    obtain ⟨name, c⟩ := p
    rw [convertAux_cons]
    refine List.Chain'.cons' (ih _) ?_
    intro y hy
    have hmem : y ∈ convertAux d (stepInfo name rest off).2 rest := by
      cases hl : convertAux d (stepInfo name rest off).2 rest with
      | nil => rw [hl] at hy; simp at hy
      | cons z zs =>
        rw [hl] at hy
        simp only [List.head?_cons, Option.mem_some_iff] at hy
        rw [← hy]
        exact List.mem_cons_self _ _
    obtain ⟨hoff, hdate⟩ := convertAux_mem d rest _ y hmem
    have hb := stepInfo_snd_bounds name rest off
    refine ⟨y.offset - off, ?_⟩
    simp only [targetDate_eq]
    rw [hdate, ← Date.addDays_add]
    congr 1
    omega

theorem convertAux_chain_succ (d : Date) :
    ∀ (ps : List (String × String)) (off : Nat),
      List.Chain' (fun a b => b.offset ≤ a.offset + 1)
        (convertAux d off ps) := by
  intro ps
  induction ps with
  | nil => intro off; simp [convertAux]
  | cons p rest ih =>
    intro off
    obtain ⟨name, c⟩ := p
    rw [convertAux_cons]
    refine List.Chain'.cons' (ih _) ?_
    intro y hy
    have hb := stepInfo_snd_bounds name rest off
    cases rest with
    | nil => simp [convertAux] at hy
    | cons q qs =>
      obtain ⟨qn, qc⟩ := q
      rw [convertAux_cons] at hy
      simp only [List.head?_cons, Option.mem_some_iff] at hy
      rw [← hy]
      simpa using hb.2

/-! ## Claim theorems for the relative-day mapper -/

/-- Claim C3: a block with periods TODAY, TONIGHT yields offsets 0, 0
(day then night) with both dates equal to the issuance date; a block with
periods TODAY, TONIGHT, TUE, TUE NIGHT, WED yields offsets 0, 0, 1, 1, 2
with the TUE periods dated one day after issuance and WED two days
after. -/
theorem claim3_today_tonight_offsets (d : Date) (a b c e f : String) :
    (convertPeriods d [("TODAY", a), ("TONIGHT", b)]).map
        (fun p => (p.offset, p.night, p.date)) =
      [(0, false, d), (0, true, d)] ∧
    (convertPeriods d [("TODAY", a), ("TONIGHT", b), ("TUE", c),
        ("TUE NIGHT", e), ("WED", f)]).map
        (fun p => (p.offset, p.night, p.date)) =
      [(0, false, d), (0, true, d), (1, false, d.addDays 1),
       (1, true, d.addDays 1), (2, false, d.addDays 2)] := by
  constructor <;>
    simp +decide [convertPeriods, convertAux, stepInfo, dayIncrements,
      pyEndsWith]

/-- Claim C4: along the emitted sequence of one block the day offsets are
monotonically non-decreasing, and since every emitted date is the
issuance date advanced by the emitted offset, consecutive dates likewise
never step backwards (each is the previous one advanced by some number of
days). -/
theorem claim4_offsets_monotone (d : Date) (ps : List (String × String)) :
    List.Chain' (fun a b => a.offset ≤ b.offset) (convertPeriods d ps) ∧
    (∀ x ∈ convertPeriods d ps, x.date = d.addDays x.offset) ∧
    List.Chain' (fun a b => ∃ k, b.date = a.date.addDays k)
      (convertPeriods d ps) :=
  ⟨convertAux_chain_le d ps 0,
   fun x hx => (convertAux_mem d ps 0 x hx).2,
   convertAux_chain_dates d ps 0⟩

/-- Claim C10: between consecutive emitted periods the day offset grows by
at most one; the sequence never skips a day number. -/
theorem claim10_offset_increments_at_most_one (d : Date)
    (ps : List (String × String)) :
    List.Chain' (fun a b => b.offset ≤ a.offset + 1) (convertPeriods d ps) :=
  convertAux_chain_succ d ps 0

/-- Claim C2 counterexample: the claim exempts REST OF TODAY from the
plain-day increment, but the mapper increments there, because the
exclusion list of the source contains only TONIGHT, TODAY,
REST OF TONIGHT and THIS AFTERNOON.  For MON followed by REST OF TODAY
the claim predicts offsets 0, 0; the code produces 0, 1. -/
theorem claim2_counterexample :
    ((convertPeriods ⟨2024, 1, 7⟩
        [("MON", "a"), ("REST OF TODAY", "b")]).map PeriodOut.offset) =
      [0, 1] ∧
    ((convertPeriods ⟨2024, 1, 7⟩
        [("MON", "a"), ("REST OF TODAY", "b")]).map PeriodOut.offset) ≠
      [0, 0] := by
  decide

/-- Claim C2 as amended: after a plain weekday-code period the offset is
incremented exactly when a following period exists and is neither a
night-suffixed period nor one of TONIGHT, TODAY, REST OF TONIGHT,
THIS AFTERNOON (REST OF TODAY is not exempted). -/
theorem claim2_amended_day_offset_increment (d : Date) (off : Nat)
    (name c next c2 : String) (rest : List (String × String))
    (hplain : (!(pyEndsWith name " NIGHT") &&
      !(name = "REST OF TODAY" || name = "REST OF TONIGHT" ||
        name = "THIS AFTERNOON" || name = "TONIGHT" ||
        name = "TODAY")) = true) :
    ((convertAux d off ((name, c) :: (next, c2) :: rest)).map
        PeriodOut.offset)[1]? =
      some (if pyEndsWith next " NIGHT" || next = "TONIGHT" ||
              next = "TODAY" || next = "REST OF TONIGHT" ||
              next = "THIS AFTERNOON" then off else off + 1) := by
  simp only [Bool.and_eq_true, Bool.not_eq_true', Bool.or_eq_false_iff,
    decide_eq_false_iff_not] at hplain
  obtain ⟨hnight, ⟨⟨⟨h1, h2⟩, h3⟩, h4⟩, h5⟩ := hplain
  rw [convertAux_cons, convertAux_cons]
  simp only [List.map_cons, List.getElem?_cons_succ, List.getElem?_cons_zero]
  congr 1
  unfold stepInfo
  rw [if_neg h1, if_neg h2, if_neg h3, if_neg h4, if_neg h5, if_neg
    (by simp [hnight])]
  simp only [dayIncrements]
  cases hB : (pyEndsWith next " NIGHT" || next = "TONIGHT" ||
      next = "TODAY" || next = "REST OF TONIGHT" ||
      next = "THIS AFTERNOON") with
  | false =>
    simp only [Bool.or_eq_false_iff, decide_eq_false_iff_not] at hB
    simp [hB.1.1.1.1, hB.1.1.1.2, hB.1.1.2, hB.1.2, hB.2]
  | true =>
    simp only [Bool.or_eq_true, decide_eq_true_eq] at hB
    rcases hB with ((((hn | hn) | hn) | hn) | hn) <;>
      simp [hn]

/-- Witness for the amended claim C2 at MON followed by TUE: the second
emitted offset is 1. -/
theorem claim2_amended_witness :
    ((convertAux ⟨2024, 1, 7⟩ 0 [("MON", ""), ("TUE", "")]).map
        PeriodOut.offset)[1]? = some 1 := by
  have h := claim2_amended_day_offset_increment ⟨2024, 1, 7⟩ 0 "MON" ""
    "TUE" "" [] (by decide)
  simpa using h

/-- Claim C1: the example body with TODAY, TONIGHT and MON issued on
2024-01-07 at 08:00 converts to exactly the three expected lines joined
by newlines, and the issuance timestamp parses to that datetime. -/
theorem claim1_example_end_to_end :
    parse_forecast_timestamp "2024-01-07T08:00:00-08:00" =
      some ⟨⟨2024, 1, 7⟩, 8, 0, 0⟩ ∧
    convert_forecast_periods
        ".TODAY...N wind 5 to 10 kt.\n.TONIGHT...N wind 5 kt.\n.MON...SW wind 10 kt."
        ⟨⟨2024, 1, 7⟩, 8, 0, 0⟩ =
      "D0_DAY (2024-01-07) N wind 5 to 10 kt.\nD0_NIGHT (2024-01-07) N wind 5 kt.\nD1_DAY (2024-01-08) SW wind 10 kt." := by
  constructor <;> decide

/-- Claim C8: when the period pattern matches nothing in the body,
convert_forecast_periods returns its input unchanged; the function is
total, so a zero-period body is not an error condition. -/
theorem claim8_zero_periods_passthrough (forecast_text : String)
    (forecast_time : DateTime)
    (hnone : scanPeriods true forecast_text.data = []) :
    convert_forecast_periods forecast_text forecast_time = forecast_text := by
  simp [convert_forecast_periods, hnone]

/-- Witness for claim C8 on a body without period headers. -/
theorem claim8_witness :
    scanPeriods true "light winds across the inner waters".data = [] ∧
    convert_forecast_periods "light winds across the inner waters"
        ⟨⟨2024, 1, 7⟩, 8, 0, 0⟩ =
      "light winds across the inner waters" :=
  ⟨by decide,
   claim8_zero_periods_passthrough _ ⟨⟨2024, 1, 7⟩, 8, 0, 0⟩ (by decide)⟩

/-! ## Structural facts about the detector verdict -/

theorem foldl_inv {α : Type} (f : Verdict → α → Verdict)
    (hstep : ∀ v a, VerdictInv v → VerdictInv (f v a)) :
    ∀ (l : List α) (v : Verdict), VerdictInv v → VerdictInv (l.foldl f v) := by
  intro l
  induction l with
  | nil => intro v hv; exact hv
  | cons a as ih => intro v hv; exact ih _ (hstep v a hv)

theorem inv_fire (v : Verdict) (t : String) (ds : List String) :
    VerdictInv ⟨true, v.corruption_types ++ [t], v.corruption_details ++ ds⟩ := by
  refine ⟨by simp, ?_⟩
  intro h
  cases h

theorem inv_fire_dedup (v : Verdict) (t : String) (ds : List String) :
    VerdictInv ⟨true,
      if t ∈ v.corruption_types then v.corruption_types
      else v.corruption_types ++ [t],
      v.corruption_details ++ ds⟩ := by
  refine ⟨⟨fun _ => ?_, fun _ => rfl⟩, fun h => by cases h⟩
  split
  · exact List.ne_nil_of_mem (by assumption)
  · simp

theorem inv_applyCheck (content : String) (mapD : String → String)
    (cap : Nat) (v : Verdict) (fc : (String → List String) × String)
    (hv : VerdictInv v) :
    VerdictInv (applyCheck content mapD cap v fc) := by
  simp only [applyCheck]
  split
  · exact hv
  · exact inv_fire v fc.2 _

theorem inv_longPeriodStep (v : Verdict) (nc : String × String)
    (hv : VerdictInv v) : VerdictInv (longPeriodStep v nc) := by
  simp only [longPeriodStep]
  split
  · exact inv_fire v _ _
  · exact hv

theorem inv_embeddedTimestampsCheck (content : String) (v : Verdict)
    (hv : VerdictInv v) : VerdictInv (embeddedTimestampsCheck content v) := by
  simp only [embeddedTimestampsCheck]
  split
  · exact inv_fire v _ _
  · exact hv

theorem inv_nonWeatherStep (content : String) (v : Verdict) (kw : String)
    (hv : VerdictInv v) : VerdictInv (nonWeatherStep content v kw) := by
  simp only [nonWeatherStep]
  split
  · exact inv_fire_dedup v _ _
  · exact hv

theorem inv_shortPeriodStep (v : Verdict) (nc : String × String)
    (hv : VerdictInv v) : VerdictInv (shortPeriodStep v nc) := by
  simp only [shortPeriodStep]
  split
  · exact inv_fire_dedup v _ _
  · exact hv

theorem inv_detect (content : String) :
    VerdictInv (detect_corruption_patterns content) := by
  have h0 : VerdictInv ⟨false, [], []⟩ := by
    refine ⟨by simp, fun _ => rfl⟩
  have h1 := foldl_inv _ (inv_applyCheck content (fun m => m) 3)
    nws_patterns _ h0
  have h2 := foldl_inv _ (inv_applyCheck content (fun m => "." ++ m) 3)
    truncated_patterns _ h1
  have h3 := foldl_inv _ (inv_applyCheck content (fun m => "." ++ m) 3)
    anomalous_patterns _ h2
  have h4 := foldl_inv _ inv_longPeriodStep
    (scanPeriods false content.data) _ h3
  have h5 := inv_embeddedTimestampsCheck content _ h4
  have h6 := foldl_inv _ (inv_nonWeatherStep content)
    non_weather_keywords _ h5
  simp only [detect_corruption_patterns, applyChecks, longPeriodCheck,
    nonWeatherCheck, shortPeriodCheck]
  split
  · exact foldl_inv _ inv_shortPeriodStep (scanPeriods false content.data) _ h6
  · exact h6

/-- Claim C9: the detector flag is true exactly when the category list is
non-empty, and a clean verdict carries empty category and detail lists. -/
theorem claim9_flag_iff_types_nonempty (content : String) :
    ((detect_corruption_patterns content).has_corruption = true ↔
      (detect_corruption_patterns content).corruption_types ≠ []) ∧
    ((detect_corruption_patterns content).has_corruption = false →
      (detect_corruption_patterns content).corruption_types = [] ∧
      (detect_corruption_patterns content).corruption_details = []) := by
  have hinv := inv_detect content
  refine ⟨hinv.1, fun hf => ⟨?_, hinv.2 hf⟩⟩
  by_contra hne
  rw [hinv.1.mpr hne] at hf
  cases hf

/-! ## Category retention and detail caps (claim C6) -/

theorem foldl_typesExt {α : Type} (f : Verdict → α → Verdict)
    (hstep : ∀ v a, ∃ l, (f v a).corruption_types = v.corruption_types ++ l) :
    ∀ (xs : List α) (v : Verdict),
      ∃ l, (xs.foldl f v).corruption_types = v.corruption_types ++ l := by
  intro xs
  induction xs with
  | nil => intro v; exact ⟨[], by simp⟩
  | cons a as ih =>
    intro v
    obtain ⟨l1, hl1⟩ := hstep v a
    obtain ⟨l2, hl2⟩ := ih (f v a)
    exact ⟨l1 ++ l2, by rw [List.foldl_cons, hl2, hl1, List.append_assoc]⟩

theorem typesExt_applyCheck (content : String) (mapD : String → String)
    (cap : Nat) (v : Verdict) (fc : (String → List String) × String) :
    ∃ l, (applyCheck content mapD cap v fc).corruption_types =
      v.corruption_types ++ l := by
  simp only [applyCheck]
  split
  · exact ⟨[], by simp⟩
  · exact ⟨[fc.2], rfl⟩

theorem typesExt_longPeriodStep (v : Verdict) (nc : String × String) :
    ∃ l, (longPeriodStep v nc).corruption_types = v.corruption_types ++ l := by
  simp only [longPeriodStep]
  split
  · exact ⟨["ABNORMALLY_LONG_PERIOD"], rfl⟩
  · exact ⟨[], by simp⟩

theorem typesExt_embeddedTimestampsCheck (content : String) (v : Verdict) :
    ∃ l, (embeddedTimestampsCheck content v).corruption_types =
      v.corruption_types ++ l := by
  simp only [embeddedTimestampsCheck]
  split
  · exact ⟨["EMBEDDED_TIMESTAMPS"], rfl⟩
  · exact ⟨[], by simp⟩

theorem typesExt_nonWeatherStep (content : String) (v : Verdict)
    (kw : String) :
    ∃ l, (nonWeatherStep content v kw).corruption_types =
      v.corruption_types ++ l := by
  simp only [nonWeatherStep]
  split
  · split
    · exact ⟨[], by simp⟩
    · exact ⟨["NON_WEATHER_CONTENT"], rfl⟩
  · exact ⟨[], by simp⟩

theorem typesExt_shortPeriodStep (v : Verdict) (nc : String × String) :
    ∃ l, (shortPeriodStep v nc).corruption_types =
      v.corruption_types ++ l := by
  simp only [shortPeriodStep]
  split
  · split
    · exact ⟨[], by simp⟩
    · exact ⟨["EXTREMELY_SHORT_PERIOD"], rfl⟩
  · exact ⟨[], by simp⟩

theorem mem_of_typesExt {t : String} {v v2 : Verdict}
    (h : t ∈ v.corruption_types)
    (he : ∃ l, v2.corruption_types = v.corruption_types ++ l) :
    t ∈ v2.corruption_types := by
  obtain ⟨l, hl⟩ := he
  rw [hl]
  exact List.mem_append_left _ h

/-- A matched check records its category before the rest of its family
runs. -/
theorem applyChecks_retains (content : String) (mapD : String → String)
    (cap : Nat) :
    ∀ (checks : List ((String → List String) × String)) (v : Verdict)
      (fc : (String → List String) × String),
      fc ∈ checks → fc.1 content ≠ [] →
      fc.2 ∈ (applyChecks content mapD cap checks v).corruption_types := by
  intro checks
  induction checks with
  | nil => intro v fc hmem; simp at hmem
  | cons g gs ih =>
    intro v fc hmem hne
    rcases List.mem_cons.mp hmem with heq | hmem2
    · subst heq
      show fc.2 ∈ (gs.foldl (applyCheck content mapD cap)
        (applyCheck content mapD cap v fc)).corruption_types
      have hfire : (applyCheck content mapD cap v fc).corruption_types =
          v.corruption_types ++ [fc.2] := by
        simp only [applyCheck]
        rw [if_neg (by simpa using hne)]
      refine mem_of_typesExt ?_
        (foldl_typesExt _ (typesExt_applyCheck content mapD cap) gs _)
      rw [hfire]
      simp
    · exact ih _ fc hmem2 hne

/-! Membership in the category list survives every later stage of the
detector. -/

theorem mem_applyChecks_of_mem (content : String) (mapD : String → String)
    (cap : Nat) (checks : List ((String → List String) × String))
    {t : String} {v : Verdict} (h : t ∈ v.corruption_types) :
    t ∈ (applyChecks content mapD cap checks v).corruption_types :=
  mem_of_typesExt h
    (foldl_typesExt _ (typesExt_applyCheck content mapD cap) checks v)

theorem mem_longPeriodCheck_of_mem (ps : List (String × String))
    {t : String} {v : Verdict} (h : t ∈ v.corruption_types) :
    t ∈ (longPeriodCheck ps v).corruption_types :=
  mem_of_typesExt h (foldl_typesExt _ typesExt_longPeriodStep ps v)

theorem mem_embeddedTimestampsCheck_of_mem (content : String)
    {t : String} {v : Verdict} (h : t ∈ v.corruption_types) :
    t ∈ (embeddedTimestampsCheck content v).corruption_types :=
  mem_of_typesExt h (typesExt_embeddedTimestampsCheck content v)

theorem mem_nonWeatherCheck_of_mem (content : String)
    {t : String} {v : Verdict} (h : t ∈ v.corruption_types) :
    t ∈ (nonWeatherCheck content v).corruption_types :=
  mem_of_typesExt h
    (foldl_typesExt _ (typesExt_nonWeatherStep content) non_weather_keywords v)

theorem mem_shortPeriodCheck_of_mem (ps : List (String × String))
    {t : String} {v : Verdict} (h : t ∈ v.corruption_types) :
    t ∈ (shortPeriodCheck ps v).corruption_types := by
  simp only [shortPeriodCheck]
  split
  · exact mem_of_typesExt h (foldl_typesExt _ typesExt_shortPeriodStep ps v)
  · exact h

theorem detect_mem_of_nws (content : String) {t : String}
    (h : t ∈ (applyChecks content (fun m => m) 3 nws_patterns
      ⟨false, [], []⟩).corruption_types) :
    t ∈ (detect_corruption_patterns content).corruption_types := by
  simp only [detect_corruption_patterns]
  exact mem_shortPeriodCheck_of_mem _ (mem_nonWeatherCheck_of_mem _
    (mem_embeddedTimestampsCheck_of_mem _ (mem_longPeriodCheck_of_mem _
      (mem_applyChecks_of_mem _ _ _ _ (mem_applyChecks_of_mem _ _ _ _ h)))))

theorem detect_mem_of_truncated (content : String) {t : String}
    (h : t ∈ (applyChecks content (fun m => "." ++ m) 3 truncated_patterns
      (applyChecks content (fun m => m) 3 nws_patterns
        ⟨false, [], []⟩)).corruption_types) :
    t ∈ (detect_corruption_patterns content).corruption_types := by
  simp only [detect_corruption_patterns]
  exact mem_shortPeriodCheck_of_mem _ (mem_nonWeatherCheck_of_mem _
    (mem_embeddedTimestampsCheck_of_mem _ (mem_longPeriodCheck_of_mem _
      (mem_applyChecks_of_mem _ _ _ _ h))))

theorem detect_mem_of_anomalous (content : String) {t : String}
    (h : t ∈ (applyChecks content (fun m => "." ++ m) 3 anomalous_patterns
      (applyChecks content (fun m => "." ++ m) 3 truncated_patterns
        (applyChecks content (fun m => m) 3 nws_patterns
          ⟨false, [], []⟩))).corruption_types) :
    t ∈ (detect_corruption_patterns content).corruption_types := by
  simp only [detect_corruption_patterns]
  exact mem_shortPeriodCheck_of_mem _ (mem_nonWeatherCheck_of_mem _
    (mem_embeddedTimestampsCheck_of_mem _ (mem_longPeriodCheck_of_mem _ h)))

/-- One capped check adds at most cap details. -/
theorem applyCheck_details_le (content : String) (mapD : String → String)
    (cap : Nat) (v : Verdict) (fc : (String → List String) × String) :
    (applyCheck content mapD cap v fc).corruption_details.length ≤
      v.corruption_details.length + cap := by
  simp only [applyCheck]
  split
  · simp
  · simp only [List.length_append, List.length_map]
    have := List.length_take_le cap (fc.1 content)
    omega

/-- The multiple-timestamps check adds at most two details. -/
theorem embeddedTimestampsCheck_details_le (content : String) (v : Verdict) :
    (embeddedTimestampsCheck content v).corruption_details.length ≤
      v.corruption_details.length + 2 := by
  simp only [embeddedTimestampsCheck]
  split
  · simp only [List.length_append]
    have := List.length_take_le 2 (findTimestamps content)
    omega
  · simp

/-- Claim C6 counterexample: a body with four extremely short periods
keeps a single matched category but four example details, contradicting
the three-per-category cap stated by the claim. -/
theorem claim6_counterexample :
    (detect_corruption_patterns
        ".MON...abc\n.TUE...de\n.WED...fg\n.THU...hi").corruption_types =
      ["EXTREMELY_SHORT_PERIOD"] ∧
    (detect_corruption_patterns
        ".MON...abc\n.TUE...de\n.WED...fg\n.THU...hi").corruption_details.length =
      4 := by
  constructor <;> decide

/-- Claim C6 as amended: every matched category is retained in the
verdict; the NWS, truncated-header and anomalous-header pattern families
keep at most 3 example matches per category and the embedded-timestamps
check at most 2, while the period-length and keyword checks keep one
detail per finding without a per-category cap; detection stays additive,
so one body can carry several categories at once. -/
theorem claim6_amended_retention_and_caps :
    (∀ (content : String) (mapD : String → String) (cap : Nat) (v : Verdict)
       (fc : (String → List String) × String),
       (applyCheck content mapD cap v fc).corruption_details.length ≤
         v.corruption_details.length + cap) ∧
    (∀ (content : String) (v : Verdict),
       (embeddedTimestampsCheck content v).corruption_details.length ≤
         v.corruption_details.length + 2) ∧
    (∀ (content : String) (fc : (String → List String) × String),
       fc ∈ nws_patterns → fc.1 content ≠ [] →
       fc.2 ∈ (detect_corruption_patterns content).corruption_types) ∧
    (∀ (content : String) (fc : (String → List String) × String),
       fc ∈ truncated_patterns → fc.1 content ≠ [] →
       fc.2 ∈ (detect_corruption_patterns content).corruption_types) ∧
    (∀ (content : String) (fc : (String → List String) × String),
       fc ∈ anomalous_patterns → fc.1 content ≠ [] →
       fc.2 ∈ (detect_corruption_patterns content).corruption_types) ∧
    (detect_corruption_patterns
        ".MON...ab\n.TUE...cd\n2024-01-08T08:00:00-08:00").corruption_types =
      ["EMBEDDED_TIMESTAMP", "EMBEDDED_TIMESTAMPS",
       "EXTREMELY_SHORT_PERIOD"] := by
  refine ⟨applyCheck_details_le, embeddedTimestampsCheck_details_le,
    ?_, ?_, ?_, by decide⟩
  · intro content fc hmem hne
    exact detect_mem_of_nws content
      (applyChecks_retains content (fun m => m) 3 nws_patterns _ fc hmem hne)
  · intro content fc hmem hne
    exact detect_mem_of_truncated content
      (applyChecks_retains content (fun m => "." ++ m) 3 truncated_patterns
        _ fc hmem hne)
  · intro content fc hmem hne
    exact detect_mem_of_anomalous content
      (applyChecks_retains content (fun m => "." ++ m) 3 anomalous_patterns
        _ fc hmem hne)

/-- Witness for the amended claim C6: the TRUNCATED_PERIOD category is
retained on a body ending in a two-letter abbreviation. -/
theorem claim6_amended_witness :
    "TRUNCATED_PERIOD" ∈
      (detect_corruption_patterns ".MO").corruption_types := by
  have h := claim6_amended_retention_and_caps
  refine h.2.2.2.1 ".MO"
    (fun s => scanAll stepTruncatedPeriod s.data, "TRUNCATED_PERIOD")
    ?_ (by decide)
  unfold truncated_patterns
  exact List.Mem.head _

/-- Claim C7: a two-dot header is flagged INCOMPLETE_DOTS and a line
ending in a two-letter abbreviation is flagged TRUNCATED_PERIOD, and an
exactly-three-dot header is not flagged; but a single-dot header is not
flagged at all (the MISSING_DOTS pattern spells a backslash escape, so it
can never match a dot), contradicting the claim for the one-dot case. -/
theorem claim7_missing_dots_never_fires :
    detect_corruption_patterns ".MON.light winds." = ⟨false, [], []⟩ ∧
    (detect_corruption_patterns ".MON..light winds.").corruption_types =
      ["INCOMPLETE_DOTS"] ∧
    (detect_corruption_patterns
        ".TODAY...light winds tonight\n.MO").corruption_types =
      ["TRUNCATED_PERIOD"] ∧
    detect_corruption_patterns ".MON...light winds." = ⟨false, [], []⟩ := by
  refine ⟨by decide, by decide, by decide, by decide⟩

/-- Claim C5: a block whose body the corruption detector flags has its
timestamp recorded by analyze_forecast_file, so process_forecast_file
skips it before any period conversion: the block contributes nothing to
the converted output. -/
theorem claim5_corrupted_blocks_excluded (content block : String)
    (hmem : block ∈ splitOnLit "$$".data content.data)
    (ts body : String) (hbb : blockBody block = some (ts, body))
    (hflag : (detect_corruption_patterns body).has_corruption = true) :
    processBlock (analyze_forecast_file content) block = none := by
  have hbody : body ≠ "" := by
    intro h0
    rw [h0] at hflag
    exact absurd hflag (by decide)
  have hab : analyzeBlock block = some ts := by
    unfold analyzeBlock
    rw [hbb]
    show (if body ≠ "" ∧
        (detect_corruption_patterns body).has_corruption = true then
      some ts else none) = some ts
    rw [if_pos ⟨hbody, hflag⟩]
  have hts : ts ∈ analyze_forecast_file content := by
    unfold analyze_forecast_file
    exact List.mem_filterMap.mpr ⟨block, hmem, hab⟩
  simp only [blockBody] at hbb
  cases hst : searchTimestamp (pyStrip block.data) with
  | none => rw [hst] at hbb; cases hbb
  | some pt =>
    rw [hst] at hbb
    simp only [Option.some.injEq, Prod.mk.injEq] at hbb
    have hts2 : pt.2 = ts := hbb.1
    have hbne : ¬(String.mk (pyStrip block.data) = "") := by
      intro h0
      have hd : pyStrip block.data = [] := by
        have h1 := congrArg String.data h0
        simpa using h1
      rw [hd] at hst
      cases hst
    simp only [processBlock]
    rw [if_neg hbne]
    simp only [hst, hts2]
    rw [if_pos hts]

/-- Witness for claim C5: a block whose body embeds a second timestamp is
flagged and contributes nothing to the output. -/
theorem claim5_witness :
    processBlock
      (analyze_forecast_file
        "2024-01-07T08:00:00-08:00\n.TODAY...winds light and variable\n2024-01-08T08:00:00-08:00")
      "2024-01-07T08:00:00-08:00\n.TODAY...winds light and variable\n2024-01-08T08:00:00-08:00" =
      none :=
  claim5_corrupted_blocks_excluded _ _ (by decide)
    "2024-01-07T08:00:00-08:00"
    ".TODAY...winds light and variable\n2024-01-08T08:00:00-08:00"
    (by decide) (by decide)

end WindLLM
